import Mathlib

/-!
Verification of the go-selenium remote WebDriver client (`remote.go`)
against its natural-language specification.

The development shallowly embeds the command/reply transport layer:
JSON values, the `{sessionId, status, value}` server envelope, the
status-code error table, the post-read logic of `execute`, the typed
reply decoders (`stringCommand`, `CurrentURL`, `decodeElement`), the
redirect check of the shared `httpClient`, session teardown (`Quit`),
script-argument marshalling (`execScript`) and the `SendKeys` character
expansion.  Go's `encoding/json` behaviour is modelled on parsed JSON
trees: a response body is `Option Json`, `none` standing for bytes that
are not valid JSON (including an empty body).
-/

/-- A JSON value, as used on the wire.  Numbers are modelled as integers:
every numeric field exchanged by the protocol in the code (status codes,
timeouts, coordinates) is integral. -/
inductive Json where
  | null : Json
  | bool (b : Bool) : Json
  | num (n : Int) : Json
  | str (s : String) : Json
  | arr (elems : List Json) : Json
  | obj (fields : List (String × Json)) : Json

/-- ASCII-case-insensitive character comparison. -/
def ciEqChar (a b : Char) : Bool :=
  a.toNat == b.toNat ||
  (65 ≤ a.toNat && a.toNat ≤ 90 && a.toNat + 32 == b.toNat) ||
  (65 ≤ b.toNat && b.toNat ≤ 90 && b.toNat + 32 == a.toNat)

/-- ASCII-case-insensitive equality of character lists. -/
def ciEqList : List Char → List Char → Bool
  | [], [] => true
  | a :: as, b :: bs => ciEqChar a b && ciEqList as bs
  | _, _ => false

/-- Case-insensitive field lookup, mirroring how `encoding/json` matches
incoming object keys to struct field names (exact or case-insensitive
match; the struct types in `remote.go` carry no json tags). -/
def ciLookup : List (String × Json) → String → Option Json
  | [], _ => none
  | (k, v) :: rest, key => if ciEqList k.data key.data then some v else ciLookup rest key

/-- The known-error table of `remote.go` (`var errorCodes = map[int]string{...}`). -/
def errorCodes (code : Int) : Option String :=
  match code with
  | 7 => some "no such element"
  | 8 => some "no such frame"
  | 9 => some "unknown command"
  | 10 => some "stale element reference"
  | 11 => some "element not visible"
  | 12 => some "invalid element state"
  | 13 => some "unknown error"
  | 15 => some "element is not selectable"
  | 17 => some "javascript error"
  | 19 => some "xpath lookup error"
  | 21 => some "timeout"
  | 23 => some "no such window"
  | 24 => some "invalid cookie domain"
  | 25 => some "unable to set cookie"
  | 26 => some "unexpected alert open"
  | 27 => some "no alert open"
  | 28 => some "script timeout"
  | 29 => some "invalid element coordinates"
  | 32 => some "invalid selector"
  | _ => none

/-- The classification performed (twice) inside `execute`:
`message, ok := errorCodes[reply.Status]; if !ok { message =
fmt.Sprintf("unknown error - %d", reply.Status) }`. -/
def classifyMessage (status : Int) : String :=
  match errorCodes status with
  | some m => m
  | none => "unknown error - " ++ toString status

/-- `SUCCESS = 0` from `remote.go`. -/
def SUCCESS : Int := 0

/-- `jsonMIMEType = "application/json"` from `remote.go`. -/
def jsonMIMEType : String := "application/json"

/-- `strings.HasPrefix(s, pre)`: byte-wise prefix test, modelled on the
character lists underlying the strings. -/
def strHasPrefixChars (s pre : String) : Bool :=
  s.data.take pre.data.length == pre.data

/-- The `serverReply` struct of `remote.go`: `SessionId string; Status int;
Value json.RawMessage`.  `Value` is `none` when the field is absent
(`nil` raw message) and `some j` when present (`some .null` for a JSON
null, since `json.RawMessage` keeps the literal bytes). -/
structure serverReply where
  SessionId : String
  Status : Int
  Value : Option Json

/-- `json.Unmarshal` into `serverReply`, on a parsed JSON value.  A JSON
`null` leaves the zero value; an object binds the fields
case-insensitively, failing on a type mismatch; any other JSON shape is
an unmarshal error (`none`). -/
def decodeServerReply (j : Json) : Option serverReply :=
  match j with
  | Json.null => some { SessionId := "", Status := 0, Value := none }
  | Json.obj fields =>
    (match ciLookup fields "sessionid" with
     | none => some ""
     | some Json.null => some ""
     | some (Json.str s) => some s
     | some _ => none).bind fun sid =>
    (match ciLookup fields "status" with
     | none => some (0 : Int)
     | some Json.null => some (0 : Int)
     | some (Json.num n) => some n
     | some _ => none).bind fun st =>
    some { SessionId := sid, Status := st, Value := ciLookup fields "value" }
  | _ => none

/-- `json.Unmarshal(buf, reply)` on the raw body: not-JSON bytes (`none`,
including an empty body) are an unmarshal error. -/
def unmarshalServerReply (body : Option Json) : Option serverReply :=
  match body with
  | none => none
  | some j => decodeServerReply j

/-- Stand-in for the message of a `json.Unmarshal` failure surfaced
verbatim by the code; the claims never inspect this text, only that the
outcome is an error distinct from success. -/
def jsonUnmarshalErrMsg : String := "json: cannot unmarshal server reply"

/-- An HTTP response as seen by `execute` after the body has been read:
numeric status code (`res.StatusCode`), status line text (`res.Status`),
`Content-Type` header, and the body's JSON parse. -/
structure HttpResp where
  statusCode : Nat
  statusText : String
  contentType : String
  body : Option Json

/-- The decision logic of `execute` (remote.go lines 167-203), after the
request has been sent and the body read:
HTTP status >= 400 decodes an envelope from the body — on unmarshal
failure the generic `"Bad server reply status: <res.Status>"` error,
otherwise the classified envelope status; a JSON content type decodes the
envelope and fails on a non-`SUCCESS` status, otherwise returns the raw
body; any other content type returns the raw body as-is. -/
def executeCore (r : HttpResp) : Except String (Option Json) :=
  if 400 ≤ r.statusCode then
    match unmarshalServerReply r.body with
    | none => Except.error ("Bad server reply status: " ++ r.statusText)
    | some rep => Except.error (classifyMessage rep.Status)
  else if strHasPrefixChars r.contentType jsonMIMEType then
    match unmarshalServerReply r.body with
    | none => Except.error jsonUnmarshalErrMsg
    | some rep =>
      if rep.Status ≠ SUCCESS then Except.error (classifyMessage rep.Status)
      else Except.ok r.body
  else Except.ok r.body

/-- One line of the always-on request log (`Log.Printf("-> %s %s [%d bytes]", ...)`). -/
def sendLogLine (method url : String) (dataLen : Nat) : String :=
  "-> " ++ method ++ " " ++ url ++ " [" ++ toString dataLen ++ " bytes]"

/-- The `httputil.DumpRequest` trace line written when `Trace` is set. -/
def traceRequestDump (method url : String) : String :=
  "-> TRACE " ++ method ++ " " ++ url

/-- The `httputil.DumpResponse` trace line written when `Trace` is set. -/
def traceResponseDump (r : HttpResp) : String :=
  "<- TRACE " ++ r.statusText

/-- One line of the always-on response log (`Log.Printf("<- %s (%s) [%d bytes]", ...)`). -/
def recvLogLine (r : HttpResp) : String :=
  "<- " ++ r.statusText ++ " (" ++ r.contentType ++ ")"

/-- `execute` as a two-output function: the returned payload/error and the
sequence of log lines, in source order.  The `trace` parameter is the
global `Trace` flag; when set, the request and response dumps are
appended to the log (`DumpRequest`/`DumpResponse` failures are swallowed
by the source, so dumping never contributes to the result). -/
def executeRun (trace : Bool) (method url : String) (dataLen : Nat) (r : HttpResp) :
    Except String (Option Json) × List String :=
  let log1 : List String := [sendLogLine method url dataLen]
  let log2 : List String := log1 ++ (if trace then [traceRequestDump method url] else [])
  let log3 : List String := log2 ++ (if trace then [traceResponseDump r] else [])
  let log4 : List String := log3 ++ [recvLogLine r]
  (executeCore r, log4)

/-- `json.Unmarshal` into `stringReply { Value *string }`: outer `none` is
an unmarshal error; `some none` is a nil `Value` pointer (field absent or
JSON null); `some (some s)` a present string. -/
def decodeStringReply (j : Json) : Option (Option String) :=
  match j with
  | Json.null => some none
  | Json.obj fields =>
    match ciLookup fields "value" with
    | none => some none
    | some Json.null => some none
    | some (Json.str s) => some (some s)
    | some _ => none
  | _ => none

/-- Possible outcomes of the string-shaped commands: a returned string, a
returned error, or a nil-pointer dereference (a Go runtime panic). -/
inductive StrOutcome where
  | ok (s : String)
  | err (e : String)
  | nilDeref
deriving DecidableEq

/-- `stringCommand` (remote.go lines 227-241) on a given response:
propagate `execute` errors, propagate unmarshal errors of the
`stringReply` decode, and otherwise return `*reply.Value` — which
dereferences a nil pointer when the reply's value is absent or null. -/
def stringCommandModel (r : HttpResp) : StrOutcome :=
  match executeCore r with
  | Except.error e => StrOutcome.err e
  | Except.ok body =>
    match body with
    | none => StrOutcome.err jsonUnmarshalErrMsg
    | some j =>
      match decodeStringReply j with
      | none => StrOutcome.err jsonUnmarshalErrMsg
      | some none => StrOutcome.nilDeref
      | some (some s) => StrOutcome.ok s

/-- `CurrentURL` (remote.go lines 393-403): like `stringCommand` but the
unmarshal error of the `stringReply` decode is ignored, leaving the zero
value — so a failed decode also reaches the nil dereference. -/
def currentURLModel (r : HttpResp) : StrOutcome :=
  match executeCore r with
  | Except.error e => StrOutcome.err e
  | Except.ok body =>
    match
      (match body with
       | none => none
       | some j =>
         match decodeStringReply j with
         | none => none
         | some ov => ov) with
    | none => StrOutcome.nilDeref
    | some s => StrOutcome.ok s

/-- `json.Unmarshal` into the inner `element { ELEMENT string }` struct. -/
def decodeElementField (j : Json) : Option String :=
  match j with
  | Json.null => some ""
  | Json.obj fields =>
    match ciLookup fields "element" with
    | none => some ""
    | some Json.null => some ""
    | some (Json.str s) => some s
    | some _ => none
  | _ => none

/-- `json.Unmarshal` into `elementReply { Value element }`, yielding the
`ELEMENT` handle string (empty when absent). -/
def decodeElementReply (j : Json) : Option String :=
  match j with
  | Json.null => some ""
  | Json.obj fields =>
    match ciLookup fields "value" with
    | none => some ""
    | some v => decodeElementField v
  | _ => none

/-- `FindElement` = `find` (a POST through `execute`) followed by
`decodeElement` (remote.go lines 457-475), on a given response: `execute`
errors propagate; a successful body is decoded into an element handle. -/
def findElementModel (r : HttpResp) : Except String String :=
  match executeCore r with
  | Except.error e => Except.error e
  | Except.ok body =>
    match body with
    | none => Except.error jsonUnmarshalErrMsg
    | some j =>
      match decodeElementReply j with
      | none => Except.error jsonUnmarshalErrMsg
      | some el => Except.ok el

/-- The `remoteWD` client struct: session id, executor base URL and the
desired capabilities (an opaque string-keyed map). -/
structure remoteWD where
  id : String
  executor : String
  capabilities : List (String × Json)

/-- `Quit` (remote.go lines 376-383): issue the DELETE through `execute`;
clear `wd.id` only when no error was returned.  Returns the new client
state and the error, mirroring `if err == nil { wd.id = "" }`. -/
def Quit (wd : remoteWD) (r : HttpResp) : remoteWD × Option String :=
  match executeCore r with
  | Except.ok _ => ({ wd with id := "" }, none)
  | Except.error e => (wd, some e)

/-- An outgoing HTTP request, reduced to its header list (all the
redirect check touches). -/
structure httpRequest where
  headers : List (String × String)

/-- The error produced by the redirect check. -/
def redirectErrMsg : String := "stopped after 10 redirects"

/-- The `CheckRedirect` closure installed on `httpClient` (remote.go lines
117-123): refuse once ten requests are already on the `via` list,
otherwise re-add the `Accept: application/json` header to the redirected
request (`req.Header.Add` appends). -/
def checkRedirect (req : httpRequest) (via : List httpRequest) : Except String httpRequest :=
  if 10 ≤ via.length then Except.error redirectErrMsg
  else Except.ok { headers := req.headers ++ [("Accept", jsonMIMEType)] }

/-- The fresh request `net/http` builds for a redirect hop; by default it
does not carry the `Accept` header (the reason `CheckRedirect` re-adds it). -/
def newHopRequest : httpRequest := { headers := [] }

/-- The redirect-following loop of `net/http`'s client, abstracted: given
the number of redirect hops the server would issue, call the redirect
check before each hop with `via` = all requests made so far; on success
report the total number of redirect hops followed, on refusal report the
error together with the number of hops completed before it. -/
def redirectLoop : Nat → List httpRequest → Except (String × Nat) Nat
  | 0, via => Except.ok (via.length - 1)
  | n + 1, via =>
    match checkRedirect newHopRequest via with
    | Except.error e => Except.error (e, via.length - 1)
    | Except.ok req2 => redirectLoop n (via ++ [req2])

/-- Follow a chain of `hops` redirects starting from the initial request. -/
def redirectSim (hops : Nat) (initialReq : httpRequest) : Except (String × Nat) Nat :=
  redirectLoop hops [initialReq]

/-- `json.Marshal` of a Go `[]interface{}` slice value: the nil slice
encodes as the JSON null value, a non-nil slice as a JSON array (per the
`encoding/json` documentation). -/
def marshalGoSlice (args : Option (List Json)) : Json :=
  match args with
  | none => Json.null
  | some l => Json.arr l

/-- The request body built by `execScript` (remote.go lines 641-650):
`json.Marshal(map[string]interface{}{"script": script, "args": args})`,
with map keys serialized in sorted order.  `args` is `none` for a nil
slice. -/
def execScriptBody (script : String) (args : Option (List Json)) : Json :=
  Json.obj [("args", marshalGoSlice args), ("script", Json.str script)]

/-- The write loop of `SendKeys` (remote.go lines 700-716):
`chars := make([]string, len(keys)); for i, c := range keys { chars[i] = string(c) }`.
The loop index `i` is the byte offset of each rune, so each assignment
lands at the rune's first byte position. -/
def sendKeysLoop : List String → Nat → List Char → List String
  | chars, _, [] => chars
  | chars, i, c :: rest => sendKeysLoop (chars.set i (String.singleton c)) (i + c.utf8Size) rest

/-- `len(keys)` for a Go string: its UTF-8 byte length. -/
def goUtf8Length (keys : List Char) : Nat := (keys.map Char.utf8Size).sum

/-- The `value` list `SendKeys` encodes: a slice of `len(keys)` empty
strings, with `string(c)` written at each rune's initial byte offset. -/
def sendKeysValue (keys : String) : List String :=
  sendKeysLoop (List.replicate (goUtf8Length keys.data) "") 0 keys.data

/-- The success envelope used by the 200-response decoding property:
`{"status":0,"value":"foo"}`. -/
def fooEnvelope : Json := Json.obj [("status", Json.num 0), ("value", Json.str "foo")]

/-- A 200 JSON response carrying `fooEnvelope`. -/
def fooResp : HttpResp :=
  { statusCode := 200, statusText := "200 OK", contentType := "application/json",
    body := some fooEnvelope }

/-- A 200 JSON response whose envelope lacks the `value` field. -/
def missingValueResp : HttpResp :=
  { statusCode := 200, statusText := "200 OK", contentType := "application/json",
    body := some (Json.obj [("status", Json.num 0)]) }

/-- A 200 JSON response whose envelope carries `"value": null`. -/
def nullValueResp : HttpResp :=
  { statusCode := 200, statusText := "200 OK", contentType := "application/json",
    body := some (Json.obj [("status", Json.num 0), ("value", Json.null)]) }

/-- A 404 response whose body is not valid JSON. -/
def badBody404Resp : HttpResp :=
  { statusCode := 404, statusText := "404 Not Found", contentType := "text/html",
    body := none }

/-- A 500 response carrying an envelope with status code 13. -/
def envelope500Resp : HttpResp :=
  { statusCode := 500, statusText := "500 Internal Server Error",
    contentType := "application/json", body := some (Json.obj [("status", Json.num 13)]) }

/-- The reply a WebDriver server sends for a find-one request matching zero
elements: a status-7 envelope. -/
def noMatchResp : HttpResp :=
  { statusCode := 500, statusText := "500 Internal Server Error",
    contentType := "application/json",
    body := some (Json.obj
      [("status", Json.num 7),
       ("value", Json.obj [("message", Json.str "Unable to locate element")])]) }

/-- A 200 response with an empty, non-JSON body (a valid outcome for
void commands, among them session termination). -/
def okEmptyResp : HttpResp :=
  { statusCode := 200, statusText := "200 OK", contentType := "", body := none }

/-- A sample open client. -/
def wd0 : remoteWD :=
  { id := "abc123", executor := "http://127.0.0.1:4444/wd/hub", capabilities := [] }

/-- An ASCII character occupies one UTF-8 byte. -/
theorem char_utf8Size_of_ascii (c : Char) (h : c.toNat ≤ 127) : c.utf8Size = 1 := by
  unfold Char.utf8Size
  have hle : c.val ≤ UInt32.ofNatCore 127 Char.utf8Size.proof_1 := by
    rw [UInt32.le_def]
    exact_mod_cast h
  rw [if_pos hle]

/-- The `SendKeys` write loop never changes the slice length. -/
theorem sendKeysLoop_length (keys : List Char) :
    ∀ (chars : List String) (i : Nat), (sendKeysLoop chars i keys).length = chars.length := by
  induction keys with
  | nil => intro chars i; rfl
  | cons c rest ih => intro chars i; simp [sendKeysLoop, ih, List.length_set]

/-- Setting exactly at the length of the left part of an append replaces
the head of the right part. -/
theorem set_append_cons (pre : List String) (x y : String) (xs : List String) :
    (pre ++ x :: xs).set pre.length y = pre ++ y :: xs := by
  simp [List.set_append]

/-- C1: for every status code in the known error table, classification
yields the documented message, and for every non-zero code absent from
the table, classification yields the generic unknown-server-error message
carrying that exact numeric code. -/
theorem classify_table_and_unknown :
    (classifyMessage 7 = "no such element" ∧
     classifyMessage 8 = "no such frame" ∧
     classifyMessage 9 = "unknown command" ∧
     classifyMessage 10 = "stale element reference" ∧
     classifyMessage 11 = "element not visible" ∧
     classifyMessage 12 = "invalid element state" ∧
     classifyMessage 13 = "unknown error" ∧
     classifyMessage 15 = "element is not selectable" ∧
     classifyMessage 17 = "javascript error" ∧
     classifyMessage 19 = "xpath lookup error" ∧
     classifyMessage 21 = "timeout" ∧
     classifyMessage 23 = "no such window" ∧
     classifyMessage 24 = "invalid cookie domain" ∧
     classifyMessage 25 = "unable to set cookie" ∧
     classifyMessage 26 = "unexpected alert open" ∧
     classifyMessage 27 = "no alert open" ∧
     classifyMessage 28 = "script timeout" ∧
     classifyMessage 29 = "invalid element coordinates" ∧
     classifyMessage 32 = "invalid selector") ∧
    (∀ code : Int, code ≠ 0 → errorCodes code = none →
      classifyMessage code = "unknown error - " ++ toString code) := by
  refine ⟨⟨rfl, rfl, rfl, rfl, rfl, rfl, rfl, rfl, rfl, rfl, rfl, rfl, rfl, rfl, rfl, rfl,
    rfl, rfl, rfl⟩, ?_⟩
  intro code _ habs
  unfold classifyMessage
  rw [habs]

/-- Witness for C1 at the absent non-zero code 99. -/
theorem classify_table_and_unknown_witness :
    (99 : Int) ≠ 0 ∧ errorCodes 99 = none ∧
    classifyMessage 99 = "unknown error - " ++ toString (99 : Int) :=
  ⟨by decide, rfl, classify_table_and_unknown.2 99 (by decide) rfl⟩

/-- C2: the claim states that a script-execution call with a nil argument
list encodes `args` as the empty JSON array.  The code passes the nil
slice straight into the marshalled map, and `encoding/json` encodes a nil
slice as JSON null — so the encoded body carries `"args": null`, not
`[]`, contradicting the claim and the repository's own
`TestExecuteScript_NoArgs`.  A non-nil empty slice does encode as `[]`. -/
theorem execScript_nilArgs_encodes_null :
    execScriptBody "return 'foo'" none =
      Json.obj [("args", Json.null), ("script", Json.str "return 'foo'")] ∧
    ciLookup [("args", Json.null), ("script", Json.str "return 'foo'")] "args" =
      some Json.null ∧
    Json.null ≠ Json.arr [] ∧
    execScriptBody "return 'foo'" (some []) =
      Json.obj [("args", Json.arr []), ("script", Json.str "return 'foo'")] := by
  refine ⟨rfl, rfl, ?_, rfl⟩
  simp

/-- C3: the claim states that decoding a reply whose envelope lacks the
`value` field (or carries a null one) against the required string shape
returns a decode error and never crashes.  The code dereferences the
decoded `*string` unchecked (`return *reply.Value`), so both
`stringCommand` and `CurrentURL` hit a nil-pointer dereference (a Go
panic) on such replies instead of returning an error. -/
theorem stringCommand_missing_value_panics :
    stringCommandModel missingValueResp = StrOutcome.nilDeref ∧
    stringCommandModel nullValueResp = StrOutcome.nilDeref ∧
    currentURLModel missingValueResp = StrOutcome.nilDeref ∧
    currentURLModel nullValueResp = StrOutcome.nilDeref :=
  ⟨rfl, rfl, rfl, rfl⟩

/-- C4: for every HTTP response with status >= 400, if the body does not
parse as a status envelope, `execute` fails with the generic bad-reply
error referencing the HTTP status text (never a classified protocol
error); if the body does parse as an envelope, `execute` fails with the
classification of the envelope's status code. -/
theorem execute_httpError_classification (r : HttpResp) (h : 400 ≤ r.statusCode) :
    (unmarshalServerReply r.body = none →
      executeCore r = Except.error ("Bad server reply status: " ++ r.statusText)) ∧
    (∀ rep, unmarshalServerReply r.body = some rep →
      executeCore r = Except.error (classifyMessage rep.Status)) := by
  constructor
  · intro hnone
    simp [executeCore, h, hnone]
  · intro rep hrep
    simp [executeCore, h, hrep]

/-- Witness for C4: a 404 with a non-JSON body yields the generic bad-reply
error, a 500 carrying a status-13 envelope yields the classified error. -/
theorem execute_httpError_classification_witness :
    400 ≤ badBody404Resp.statusCode ∧
    unmarshalServerReply badBody404Resp.body = none ∧
    executeCore badBody404Resp =
      Except.error ("Bad server reply status: " ++ "404 Not Found") ∧
    400 ≤ envelope500Resp.statusCode ∧
    unmarshalServerReply envelope500Resp.body =
      some { SessionId := "", Status := 13, Value := none } ∧
    executeCore envelope500Resp = Except.error (classifyMessage 13) :=
  ⟨by decide, rfl,
   (execute_httpError_classification badBody404Resp (by decide)).1 rfl,
   by decide, rfl,
   (execute_httpError_classification envelope500Resp (by decide)).2
     { SessionId := "", Status := 13, Value := none } rfl⟩

/-- C5: the redirect check of the shared transport refuses the next hop as
soon as ten requests are on the `via` list (so an 11-hop redirect chain
fails with the redirect-limit error having completed only 9 hops, well
before an 11th hop could complete), and every permitted hop gets the
`Accept: application/json` header re-added to the outgoing request. -/
theorem redirect_limit_and_header :
    (∀ req via, 10 ≤ via.length →
      checkRedirect req via = Except.error redirectErrMsg) ∧
    (∀ req via, via.length < 10 → ∃ req2,
      checkRedirect req via = Except.ok req2 ∧
      ("Accept", jsonMIMEType) ∈ req2.headers) ∧
    (∀ init, redirectSim 11 init = Except.error (redirectErrMsg, 9) ∧ 9 < 11) := by
  refine ⟨?_, ?_, ?_⟩
  · intro req via h
    simp [checkRedirect, h]
  · intro req via h
    refine ⟨{ headers := req.headers ++ [("Accept", jsonMIMEType)] }, ?_, ?_⟩
    · simp [checkRedirect, Nat.not_le.mpr h]
    · simp
  · intro init
    exact ⟨rfl, by decide⟩

/-- Witness for C5 at a full `via` list of ten requests and at a short one. -/
theorem redirect_limit_and_header_witness :
    10 ≤ (List.replicate 10 newHopRequest).length ∧
    checkRedirect newHopRequest (List.replicate 10 newHopRequest) =
      Except.error redirectErrMsg ∧
    (List.replicate 3 newHopRequest).length < 10 ∧
    (∃ req2, checkRedirect newHopRequest (List.replicate 3 newHopRequest) =
      Except.ok req2 ∧ ("Accept", jsonMIMEType) ∈ req2.headers) ∧
    redirectSim 11 newHopRequest = Except.error (redirectErrMsg, 9) :=
  ⟨by simp, redirect_limit_and_header.1 newHopRequest (List.replicate 10 newHopRequest) (by simp),
   by simp, redirect_limit_and_header.2.1 newHopRequest (List.replicate 3 newHopRequest) (by simp),
   (redirect_limit_and_header.2.2 newHopRequest).1⟩

/-- C6: `Quit` clears the stored session id to the empty string exactly
when the session-termination request succeeds, and leaves the whole
client state unchanged when it fails. -/
theorem quit_clears_session_id (wd : remoteWD) (r : HttpResp) :
    ((Quit wd r).2 = none → (Quit wd r).1 = { wd with id := "" }) ∧
    (∀ e, (Quit wd r).2 = some e → (Quit wd r).1 = wd) := by
  cases hc : executeCore r with
  | ok v => simp [Quit, hc]
  | error e => simp [Quit, hc]

/-- Witness for C6: a successful DELETE clears the id, a failing one
leaves the client untouched. -/
theorem quit_clears_session_id_witness :
    (Quit wd0 okEmptyResp).2 = none ∧
    (Quit wd0 okEmptyResp).1 = { wd0 with id := "" } ∧
    (Quit wd0 badBody404Resp).2 =
      some ("Bad server reply status: " ++ "404 Not Found") ∧
    (Quit wd0 badBody404Resp).1 = wd0 :=
  ⟨rfl, (quit_clears_session_id wd0 okEmptyResp).1 rfl, rfl,
   (quit_clears_session_id wd0 badBody404Resp).2
     ("Bad server reply status: " ++ "404 Not Found") rfl⟩

/-- C7: a 200 response whose content type indicates JSON and whose body is
the envelope with status 0 and value `"foo"` makes `execute` succeed with
the raw body, and decoding that body as the string shape yields exactly
`"foo"`. -/
theorem execute_success_string_decode (r : HttpResp) (h200 : r.statusCode = 200)
    (hct : strHasPrefixChars r.contentType jsonMIMEType = true)
    (hbody : r.body = some fooEnvelope) :
    executeCore r = Except.ok r.body ∧
    stringCommandModel r = StrOutcome.ok "foo" := by
  have hrep : unmarshalServerReply r.body =
      some { SessionId := "", Status := 0, Value := some (Json.str "foo") } := by
    rw [hbody]; rfl
  have hcore : executeCore r = Except.ok r.body := by
    simp [executeCore, h200, hct, hrep, SUCCESS]
  refine ⟨hcore, ?_⟩
  have hdec : decodeStringReply fooEnvelope = some (some "foo") := rfl
  simp [stringCommandModel, hcore, hbody, hdec]

/-- Witness for C7 at the concrete 200 JSON response. -/
theorem execute_success_string_decode_witness :
    fooResp.statusCode = 200 ∧
    strHasPrefixChars fooResp.contentType jsonMIMEType = true ∧
    fooResp.body = some fooEnvelope ∧
    stringCommandModel fooResp = StrOutcome.ok "foo" :=
  ⟨rfl, rfl, rfl, (execute_success_string_decode fooResp rfl rfl rfl).2⟩

/-- C8: a find-one-element call whose reply is the wire protocol's
zero-match reply — a status-7 envelope (delivered with a JSON content
type, with or without an HTTP error status) — fails with the
`NoSuchElement` error (`classify(7)` = "no such element") and never
succeeds with any element handle. -/
theorem findElement_no_match_error (r : HttpResp) (rep : serverReply)
    (hdec : unmarshalServerReply r.body = some rep) (h7 : rep.Status = 7)
    (hchan : 400 ≤ r.statusCode ∨ strHasPrefixChars r.contentType jsonMIMEType = true) :
    findElementModel r = Except.error "no such element" := by
  have hclass : classifyMessage rep.Status = "no such element" := by rw [h7]; rfl
  have hcore : executeCore r = Except.error (classifyMessage rep.Status) := by
    by_cases h4 : 400 ≤ r.statusCode
    · simp [executeCore, h4, hdec]
    · have hj : strHasPrefixChars r.contentType jsonMIMEType = true := hchan.resolve_left h4
      have hne : rep.Status ≠ SUCCESS := by rw [h7]; decide
      simp [executeCore, h4, hj, hdec, hne]
  simp [findElementModel, hcore, hclass]

/-- Witness for C8 at a concrete status-7 reply. -/
theorem findElement_no_match_error_witness :
    unmarshalServerReply noMatchResp.body =
      some { SessionId := "", Status := 7,
             Value := some (Json.obj [("message", Json.str "Unable to locate element")]) } ∧
    findElementModel noMatchResp = Except.error "no such element" :=
  ⟨rfl, findElement_no_match_error noMatchResp
    { SessionId := "", Status := 7,
      Value := some (Json.obj [("message", Json.str "Unable to locate element")]) }
    rfl rfl (Or.inl (by decide))⟩

/-- C9: the payload/error returned by `execute` is identical whether the
`Trace` flag is set or not — tracing only extends the log, never the
result (a two-run noninterference statement over the flag). -/
theorem trace_noninterference (t1 t2 : Bool) (method url : String) (dataLen : Nat)
    (r : HttpResp) :
    (executeRun t1 method url dataLen r).1 = (executeRun t2 method url dataLen r).1 := rfl

/-- Running the `SendKeys` write loop over a fresh buffer of exactly the
remaining byte length, starting past an already-written prefix, writes
each rune at its initial byte offset and leaves the other positions as
empty strings. -/
theorem sendKeysLoop_replicate (keys : List Char) :
    ∀ pre : List String,
      sendKeysLoop (pre ++ List.replicate (goUtf8Length keys) "") pre.length keys
        = pre ++ keys.flatMap (fun c => String.singleton c :: List.replicate (c.utf8Size - 1) "") := by
  induction keys with
  | nil =>
    intro pre
    simp [sendKeysLoop, goUtf8Length]
  | cons c rest ih =>
    intro pre
    have hL : 0 < c.utf8Size := Char.utf8Size_pos c
    have hsplit : goUtf8Length (c :: rest) = (c.utf8Size - 1 + goUtf8Length rest) + 1 := by
      simp [goUtf8Length]
      omega
    rw [hsplit, List.replicate_succ]
    show sendKeysLoop
        ((pre ++ "" :: List.replicate (c.utf8Size - 1 + goUtf8Length rest) "").set
          pre.length (String.singleton c))
        (pre.length + c.utf8Size) rest = _
    rw [set_append_cons, List.replicate_add]
    have hassoc :
        pre ++ String.singleton c ::
            (List.replicate (c.utf8Size - 1) "" ++ List.replicate (goUtf8Length rest) "")
          = (pre ++ String.singleton c :: List.replicate (c.utf8Size - 1) "")
              ++ List.replicate (goUtf8Length rest) "" := by
      simp
    have hlen : pre.length + c.utf8Size
        = (pre ++ String.singleton c :: List.replicate (c.utf8Size - 1) "").length := by
      simp
      omega
    rw [hassoc, hlen, ih]
    simp

/-- On ASCII-only input each rune contributes exactly its own singleton
string and no padding. -/
theorem flatMap_singleton_of_ascii (l : List Char) (h : ∀ c ∈ l, c.toNat ≤ 127) :
    l.flatMap (fun c => String.singleton c :: List.replicate (c.utf8Size - 1) "")
      = l.map String.singleton := by
  induction l with
  | nil => rfl
  | cons c rest ih =>
    have h1 : c.utf8Size = 1 := char_utf8Size_of_ascii c (h c (by simp))
    simp [h1, ih (fun x hx => h x (by simp [hx]))]

/-- Concatenating the singleton strings of a character list gives back the
list. -/
theorem flatten_map_singleton (l : List Char) :
    ((l.map String.singleton).map String.data).flatten = l := by
  induction l with
  | nil => rfl
  | cons c rest ih =>
    have hc : (String.singleton c).data = [c] := rfl
    simp only [List.map_cons, List.flatten_cons, hc, ih, List.singleton_append]

/-- C10: `SendKeys` encodes the `value` field as a list whose length is
the UTF-8 byte length of the keys (not the rune count); each rune's
singleton string sits at its initial byte offset and every non-initial
byte offset holds an empty string; in particular for ASCII-only keys the
list is exactly the singleton strings whose concatenation is the keys. -/
theorem sendKeys_value_expansion (keys : String) :
    (sendKeysValue keys).length = goUtf8Length keys.data ∧
    sendKeysValue keys
      = keys.data.flatMap (fun c => String.singleton c :: List.replicate (c.utf8Size - 1) "") ∧
    ((∀ c ∈ keys.data, c.toNat ≤ 127) →
      sendKeysValue keys = keys.data.map String.singleton ∧
      ((sendKeysValue keys).map String.data).flatten = keys.data) := by
  have hchar : sendKeysValue keys
      = keys.data.flatMap (fun c => String.singleton c :: List.replicate (c.utf8Size - 1) "") := by
    have h := sendKeysLoop_replicate keys.data []
    simpa [sendKeysValue] using h
  refine ⟨?_, hchar, ?_⟩
  · simp [sendKeysValue, sendKeysLoop_length]
  · intro hascii
    have hmap : sendKeysValue keys = keys.data.map String.singleton := by
      rw [hchar, flatMap_singleton_of_ascii keys.data hascii]
    exact ⟨hmap, by rw [hmap, flatten_map_singleton]⟩

/-- Witness for C10 at the ASCII keys "hi" and the two-byte rune "é". -/
theorem sendKeys_value_expansion_witness :
    (∀ c ∈ ("hi" : String).data, c.toNat ≤ 127) ∧
    sendKeysValue "hi" = ["h", "i"] ∧
    sendKeysValue "é" = ["é", ""] := by
  have hascii : ∀ c ∈ ("hi" : String).data, c.toNat ≤ 127 := by decide
  refine ⟨hascii, ?_, ?_⟩
  · have h := ((sendKeys_value_expansion "hi").2.2 hascii).1
    rw [h]
    rfl
  · have h := (sendKeys_value_expansion "é").2.1
    rw [h]
    rfl
